import Mathlib

/-!
Verification of the offset-resolution core of the `chrono` fork: the
`TimeZone` / `FixedTimeZone` capabilities, the `LocalResult` wrapper, the
`Utc` reference zone and the error taxonomy, as found in
`src/error.rs`, `src/offset/mod.rs` and `src/offset/utc.rs`.

Rust integer conventions used throughout the embedding:
* Rust `/` and `%` on `i64` truncate toward zero; they are embedded as
  `Int.tdiv` / `Int.tmod`.
* Rust `as u32` keeps the low 32 bits of the two's-complement value; it is
  embedded as `u32_cast` (Euclidean remainder modulo 2^32).
* Rust `u32` multiplication wraps modulo 2^32; it is embedded as `u32_mul`.
All inputs that matter are well inside `i64`, so plain `Int` arithmetic is
otherwise exact.
-/

namespace Chrono

/-- Internal representation of the chrono error (`src/error.rs`,
`ChronoErrorKind`): a closed set of five kinds. -/
inductive ChronoErrorKind where
  | InvalidDate
  | InvalidTime
  | InvalidDateTime
  | AmbiguousDate
  | SystemTimeBeforeEpoch
deriving DecidableEq

/-- The error raised for an invalid date time (`src/error.rs`, `ChronoError`):
wraps exactly one kind. -/
structure ChronoError where
  kind : ChronoErrorKind
deriving DecidableEq

/-- Internal constructor for a chrono error (`ChronoError::new`). -/
def ChronoError.new (kind : ChronoErrorKind) : ChronoError := ⟨kind⟩

/-- Decidable equality for `Except`, so results can be compared by `decide`. -/
instance {ε α : Type} [DecidableEq ε] [DecidableEq α] : DecidableEq (Except ε α) := fun x y =>
  match x, y with
  | .error a, .error b =>
    if h : a = b then isTrue (congrArg Except.error h)
    else isFalse fun hc => h (Except.error.inj hc)
  | .error _, .ok _ => isFalse fun hc => Except.noConfusion hc
  | .ok _, .error _ => isFalse fun hc => Except.noConfusion hc
  | .ok a, .ok b =>
    if h : a = b then isTrue (congrArg Except.ok h)
    else isFalse fun hc => h (Except.ok.inj hc)

/-- The conversion result from the local time to the timezone-aware datetime
types (`src/offset/mod.rs`, `LocalResult<T>`). -/
inductive LocalResult (T : Type) where
  | Single (t : T)
  | Ambiguous (tmin : T) (tmax : T)
deriving DecidableEq

/-- Returns `some` only when the conversion result is unique
(`LocalResult::single`). -/
def LocalResult.single {T : Type} : LocalResult T → Option T
  | .Single t => some t
  | _ => none

/-- Returns `some` for the earliest possible conversion result
(`LocalResult::earliest`). -/
def LocalResult.earliest {T : Type} : LocalResult T → Option T
  | .Single t => some t
  | .Ambiguous t _ => some t

/-- Returns `some` for the latest possible conversion result
(`LocalResult::latest`). -/
def LocalResult.latest {T : Type} : LocalResult T → Option T
  | .Single t => some t
  | .Ambiguous _ t => some t

/-- Maps a `LocalResult T` into `LocalResult U` with the given function
(`LocalResult::map`). -/
def LocalResult.map {T U : Type} (f : T → U) : LocalResult T → LocalResult U
  | .Single v => .Single (f v)
  | .Ambiguous tmin tmax => .Ambiguous (f tmin) (f tmax)

/-- Makes a new date-time from the current date and a time
(`LocalResult::<Date<Tz>>::and_time`). The external combination
`Date::and_time` lives outside this core and is passed in as `dAndTime`. -/
def LocalResult.and_time {D T DT : Type} (dAndTime : D → T → Except ChronoError DT) :
    LocalResult D → T → Except ChronoError (LocalResult DT)
  | .Single d, time =>
    match dAndTime d time with
    | .ok dt => .ok (.Single dt)
    | .error e => .error e
  | _, _ => .error (ChronoError.new .AmbiguousDate)

/-- Makes a new date-time from the current date, hour, minute and second
(`LocalResult::and_hms`); `dAndHms` is the external `Date::and_hms`. -/
def LocalResult.and_hms {D DT : Type} (dAndHms : D → Nat → Nat → Nat → Except ChronoError DT) :
    LocalResult D → Nat → Nat → Nat → Except ChronoError (LocalResult DT)
  | .Single d, hour, minute, sec =>
    match dAndHms d hour minute sec with
    | .ok dt => .ok (.Single dt)
    | .error e => .error e
  | _, _, _, _ => .error (ChronoError.new .AmbiguousDate)

/-- Makes a new date-time from the current date, hour, minute, second and
millisecond (`LocalResult::and_hms_milli`); `dAndHmsMilli` is the external
`Date::and_hms_milli`. -/
def LocalResult.and_hms_milli {D DT : Type}
    (dAndHmsMilli : D → Nat → Nat → Nat → Nat → Except ChronoError DT) :
    LocalResult D → Nat → Nat → Nat → Nat → Except ChronoError (LocalResult DT)
  | .Single d, hour, minute, sec, milli =>
    match dAndHmsMilli d hour minute sec milli with
    | .ok dt => .ok (.Single dt)
    | .error e => .error e
  | _, _, _, _, _ => .error (ChronoError.new .AmbiguousDate)

/-- Makes a new date-time from the current date, hour, minute, second and
microsecond (`LocalResult::and_hms_micro`); `dAndHmsMicro` is the external
`Date::and_hms_micro`. -/
def LocalResult.and_hms_micro {D DT : Type}
    (dAndHmsMicro : D → Nat → Nat → Nat → Nat → Except ChronoError DT) :
    LocalResult D → Nat → Nat → Nat → Nat → Except ChronoError (LocalResult DT)
  | .Single d, hour, minute, sec, micro =>
    match dAndHmsMicro d hour minute sec micro with
    | .ok dt => .ok (.Single dt)
    | .error e => .error e
  | _, _, _, _, _ => .error (ChronoError.new .AmbiguousDate)

/-- Makes a new date-time from the current date, hour, minute, second and
nanosecond (`LocalResult::and_hms_nano`); `dAndHmsNano` is the external
`Date::and_hms_nano`. -/
def LocalResult.and_hms_nano {D DT : Type}
    (dAndHmsNano : D → Nat → Nat → Nat → Nat → Except ChronoError DT) :
    LocalResult D → Nat → Nat → Nat → Nat → Except ChronoError (LocalResult DT)
  | .Single d, hour, minute, sec, nano =>
    match dAndHmsNano d hour minute sec nano with
    | .ok dt => .ok (.Single dt)
    | .error e => .error e
  | _, _, _, _, _ => .error (ChronoError.new .AmbiguousDate)

/-- Outcome type of `LocalResult::unwrap`: the source either returns the
payload or aborts the process; `panicked tmin tmax` records the abort whose
diagnostic message names both candidate values. -/
inductive UnwrapOutcome (T : Type) where
  | value (t : T)
  | panicked (tmin : T) (tmax : T)
deriving DecidableEq

/-- Returns the single unique conversion result, or aborts
(`LocalResult::unwrap`). -/
def LocalResult.unwrap {T : Type} : LocalResult T → UnwrapOutcome T
  | .Single t => .value t
  | .Ambiguous t1 t2 => .panicked t1 t2

/-- Modelled from the spec: `NaiveDate` from the Naive Calendar Library is not
under `src/`; this core only passes dates through, so a date is modelled by
its day number relative to the epoch 1970-01-01. -/
structure NaiveDate where
  days : Int
deriving DecidableEq

/-- Modelled from the spec: `NaiveDateTime` from the Naive Calendar Library is
not under `src/`; a date-time is modelled by its whole-second count since the
epoch 1970-01-01T00:00:00 plus the nanoseconds since the last whole second,
exactly the pair accepted by `NaiveDateTime::from_timestamp`. -/
structure NaiveDateTime where
  secs : Int
  nsecs : Nat
deriving DecidableEq

/-- Modelled from the spec: day count of a proleptic Gregorian calendar date
relative to the epoch 1970-01-01 (the Naive Calendar Library's calendar
arithmetic is not under `src/`; the spec fixes the proleptic Gregorian
calendar with year 0 being 1 BCE and the Unix epoch as zero point). -/
def daysFromCivil (y : Int) (m d : Nat) : Int :=
  let yy := if m ≤ 2 then y - 1 else y
  let era := Int.fdiv yy 400
  let yoe := (yy - era * 400).toNat
  let mp := if 2 < m then m - 3 else m + 9
  let doy := (153 * mp + 2) / 5 + d - 1
  let doe := yoe * 365 + yoe / 4 - yoe / 100 + doy
  era * 146097 + (doe : Int) - 719468

/-- Modelled from the spec: the whole-second timestamp of a proleptic
Gregorian civil date-time, used only to name concrete expected values. -/
def civilSecs (y : Int) (m d h mi s : Nat) : Int :=
  86400 * daysFromCivil y m d + ((3600 * h + 60 * mi + s : Nat) : Int)

/-- Modelled from the spec: smallest whole-second count representable by the
Naive Calendar Library (its calendar range starts at year -262144, day
January 1). -/
def minSecs : Int := 86400 * daysFromCivil (-262144) 1 1

/-- Modelled from the spec: largest whole-second count representable by the
Naive Calendar Library (its calendar range ends at year 262143, day
December 31). -/
def maxSecs : Int := 86400 * daysFromCivil 262143 12 31 + 86399

/-- Modelled from the spec: `NaiveDateTime::from_timestamp` from the Naive
Calendar Library is not under `src/`. Per the spec it fails with
`InvalidTime` on an out-of-range nanosecond (at least two billion, since a
fractional second may exceed its unit by one second to represent a leap
second) and with `InvalidDateTime` when the whole-second count falls outside
the representable calendar range. -/
def NaiveDateTime.from_timestamp (secs : Int) (nsecs : Nat) :
    Except ChronoError NaiveDateTime :=
  if 2000000000 ≤ nsecs then .error (ChronoError.new .InvalidTime)
  else if secs < minSecs then .error (ChronoError.new .InvalidDateTime)
  else if maxSecs < secs then .error (ChronoError.new .InvalidDateTime)
  else .ok ⟨secs, nsecs⟩

/-- Modelled from the spec: `FixedOffset` (`src/offset/fixed.rs` is not under
`src/`): a signed count of seconds east of UTC. -/
structure FixedOffset where
  local_minus_utc : Int
deriving DecidableEq

/-- Modelled from the spec: the east-of constructor of `FixedOffset`. -/
def FixedOffset.east (secs : Int) : FixedOffset := ⟨secs⟩

/-- The UTC time zone (`src/offset/utc.rs`, `struct Utc`): a zero-size marker
that is simultaneously a zone and its own offset. -/
inductive Utc where
  | mk
deriving DecidableEq

/-- Modelled from the spec: `Date<Utc>` (outside this core) pairs a naive
calendar value with its resolved offset. -/
structure Date where
  date : NaiveDate
  offset : Utc
deriving DecidableEq

/-- Modelled from the spec: the trusted `Date::from_utc` constructor pairing a
naive date with an offset. -/
def Date.from_utc (date : NaiveDate) (offset : Utc) : Date := ⟨date, offset⟩

/-- Modelled from the spec: `DateTime<Utc>` (outside this core) pairs a naive
UTC date-time value with its resolved offset. -/
structure DateTime where
  datetime : NaiveDateTime
  offset : Utc
deriving DecidableEq

/-- Modelled from the spec: the trusted `DateTime::from_utc` constructor
pairing a naive UTC date-time with an offset. -/
def DateTime.from_utc (datetime : NaiveDateTime) (offset : Utc) : DateTime :=
  ⟨datetime, offset⟩

/-- Reconstructs the time zone from the offset (`impl TimeZone for Utc`,
`from_offset`). -/
def Utc.from_offset (_offset : Utc) : Utc := .mk

/-- Creates the offset for a given local date (`impl TimeZone for Utc`):
always `Ok(Utc)`. -/
def Utc.offset_from_local_date (_self : Utc) (_local : NaiveDate) :
    Except ChronoError Utc := .ok .mk

/-- Creates the offset for a given local date-time (`impl TimeZone for Utc`):
always `Ok(Utc)`. -/
def Utc.offset_from_local_datetime (_self : Utc) (_local : NaiveDateTime) :
    Except ChronoError Utc := .ok .mk

/-- Creates the offset for a given UTC date (`impl TimeZone for Utc`):
always `Ok(Utc)`. -/
def Utc.offset_from_utc_date (_self : Utc) (_utc : NaiveDate) :
    Except ChronoError Utc := .ok .mk

/-- Creates the offset for a given UTC date-time (`impl TimeZone for Utc`):
always `Ok(Utc)`. -/
def Utc.offset_from_utc_datetime (_self : Utc) (_utc : NaiveDateTime) :
    Except ChronoError Utc := .ok .mk

/-- Infallible offset for a given UTC date (`impl FixedTimeZone for Utc`). -/
def Utc.offset_from_utc_date_fixed (_self : Utc) (_utc : NaiveDate) : Utc := .mk

/-- Infallible offset for a given UTC date-time
(`impl FixedTimeZone for Utc`). -/
def Utc.offset_from_utc_datetime_fixed (_self : Utc) (_utc : NaiveDateTime) : Utc := .mk

/-- Returns the fixed offset from UTC to the local time stored
(`impl Offset for Utc`, `fix`): `FixedOffset::east(0)`. -/
def Utc.fix (_self : Utc) : FixedOffset := FixedOffset.east 0

/-- Converts the UTC date to the local time (`TimeZone::from_utc_date`,
default method, specialised at `Tz = Utc`). -/
def Utc.from_utc_date (self : Utc) (utc : NaiveDate) : Except ChronoError Date :=
  match self.offset_from_utc_date utc with
  | .error e => .error e
  | .ok offset => .ok (Date.from_utc utc offset)

/-- Converts the UTC date-time to the local time
(`TimeZone::from_utc_datetime`, default method, specialised at `Tz = Utc`). -/
def Utc.from_utc_datetime (self : Utc) (utc : NaiveDateTime) :
    Except ChronoError DateTime :=
  match self.offset_from_utc_datetime utc with
  | .error e => .error e
  | .ok offset => .ok (DateTime.from_utc utc offset)

/-- Infallible conversion of a UTC date (`FixedTimeZone::from_utc_date_fixed`,
default method, specialised at `Tz = Utc`). -/
def Utc.from_utc_date_fixed (self : Utc) (utc : NaiveDate) : Date :=
  Date.from_utc utc (self.offset_from_utc_date_fixed utc)

/-- Infallible conversion of a UTC date-time
(`FixedTimeZone::from_utc_datetime_fixed`, default method, specialised at
`Tz = Utc`). -/
def Utc.from_utc_datetime_fixed (self : Utc) (utc : NaiveDateTime) : DateTime :=
  DateTime.from_utc utc (self.offset_from_utc_datetime_fixed utc)

/-- Makes a new date-time from a UNIX timestamp (`TimeZone::timestamp`,
default method, specialised at `Tz = Utc`). -/
def Utc.timestamp (self : Utc) (secs : Int) (nsecs : Nat) :
    Except ChronoError DateTime :=
  match NaiveDateTime.from_timestamp secs nsecs with
  | .error e => .error e
  | .ok dt => self.from_utc_datetime dt

/-- Rust `as u32` on an `i64` value: keep the low 32 bits. -/
def u32_cast (x : Int) : Nat := (x % 4294967296).toNat

/-- Rust `u32` multiplication: wraps modulo 2^32. -/
def u32_mul (a b : Nat) : Nat := a * b % 4294967296

/-- Normalization step of `TimeZone::timestamp_millis`: Rust computes
`(millis / 1000, millis % 1000)` with truncating division and, when the
remainder is negative, decrements the quotient and adds 1000 to the
remainder. -/
def timestamp_millis_norm (millis : Int) : Int × Int :=
  if Int.tmod millis 1000 < 0 then
    (Int.tdiv millis 1000 - 1, Int.tmod millis 1000 + 1000)
  else
    (Int.tdiv millis 1000, Int.tmod millis 1000)

/-- Normalization step of `TimeZone::timestamp_nanos`: same as for
milliseconds with scale 1000000000. -/
def timestamp_nanos_norm (nanos : Int) : Int × Int :=
  if Int.tmod nanos 1000000000 < 0 then
    (Int.tdiv nanos 1000000000 - 1, Int.tmod nanos 1000000000 + 1000000000)
  else
    (Int.tdiv nanos 1000000000, Int.tmod nanos 1000000000)

/-- Makes a new date-time from a millisecond timestamp
(`TimeZone::timestamp_millis`, default method, specialised at `Tz = Utc`):
normalizes and calls `timestamp(secs, millis as u32 * 1_000_000)`. -/
def Utc.timestamp_millis (self : Utc) (millis : Int) : Except ChronoError DateTime :=
  let p := timestamp_millis_norm millis
  self.timestamp p.1 (u32_mul (u32_cast p.2) 1000000)

/-- Makes a new date-time from a nanosecond timestamp
(`TimeZone::timestamp_nanos`, default method, specialised at `Tz = Utc`):
normalizes and calls `timestamp(secs, nanos as u32)`. -/
def Utc.timestamp_nanos (self : Utc) (nanos : Int) : Except ChronoError DateTime :=
  let p := timestamp_nanos_norm nanos
  self.timestamp p.1 (u32_cast p.2)

/-- Outcome of `Utc::now()`: the source either aborts inside `expect` (whose
message reads that the system time is before the Unix epoch), returns a
date-time, or forwards an error from `NaiveDateTime::from_timestamp`. -/
inductive NowOutcome where
  | panicked
  | ok (dt : DateTime)
  | err (e : ChronoError)
deriving DecidableEq

/-- Rust `as i64` on a `u64` value: two's-complement reinterpretation. -/
def u64_as_i64 (s : Nat) : Int :=
  if s < 9223372036854775808 then (s : Int) else (s : Int) - 18446744073709551616

/-- Returns the current date and time (`Utc::now`, `src/offset/utc.rs`). The
System Clock read `SystemTime::now().duration_since(UNIX_EPOCH)` is modelled
by the `clock` argument: `none` when the clock is strictly before the epoch
(the `Err` case of `duration_since`), `some (secs, subsecNanos)` otherwise.
The source applies `expect` to that result, so the `none` case aborts. -/
def Utc.now (clock : Option (Nat × Nat)) : NowOutcome :=
  match clock with
  | none => .panicked
  | some (s, ns) =>
    match NaiveDateTime.from_timestamp (u64_as_i64 s) ns with
    | .error e => .err e
    | .ok naive => .ok (DateTime.from_utc naive .mk)

/-- Truncating remainder changes sign with its dividend. -/
theorem tmod_neg_left (a b : Int) : Int.tmod (-a) b = - Int.tmod a b := by
  rw [Int.tmod_def, Int.tmod_def, Int.neg_tdiv]
  ring

/-- Truncating remainder by a positive scale is strictly above the negated
scale. -/
theorem tmod_gt_neg (x : Int) {s : Int} (hs : 0 < s) : -s < Int.tmod x s := by
  rcases le_or_lt 0 x with hx | hx
  · have h := Int.tmod_nonneg s hx
    omega
  · have h1 : Int.tmod (-x) s < s := Int.tmod_lt_of_pos (-x) hs
    have h2 : Int.tmod (-x) s = - Int.tmod x s := tmod_neg_left x s
    omega

/-- The millisecond normalization step is exact floor division: the quotient
and remainder recompose the input and the remainder lies in `[0, 1000)`. -/
theorem timestamp_millis_norm_spec (x : Int) :
    (timestamp_millis_norm x).1 * 1000 + (timestamp_millis_norm x).2 = x ∧
      0 ≤ (timestamp_millis_norm x).2 ∧ (timestamp_millis_norm x).2 < 1000 := by
  have h1 := Int.tdiv_add_tmod x 1000
  have h2 : Int.tmod x 1000 < 1000 := Int.tmod_lt_of_pos x (by decide)
  have h3 : -1000 < Int.tmod x 1000 := tmod_gt_neg x (by decide)
  unfold timestamp_millis_norm
  by_cases h : Int.tmod x 1000 < 0
  · rw [if_pos h]
    dsimp only
    omega
  · rw [if_neg h]
    dsimp only
    omega

/-- The nanosecond normalization step is exact floor division: the quotient
and remainder recompose the input and the remainder lies in
`[0, 1000000000)`. -/
theorem timestamp_nanos_norm_spec (x : Int) :
    (timestamp_nanos_norm x).1 * 1000000000 + (timestamp_nanos_norm x).2 = x ∧
      0 ≤ (timestamp_nanos_norm x).2 ∧ (timestamp_nanos_norm x).2 < 1000000000 := by
  have h1 := Int.tdiv_add_tmod x 1000000000
  have h2 : Int.tmod x 1000000000 < 1000000000 := Int.tmod_lt_of_pos x (by decide)
  have h3 : -1000000000 < Int.tmod x 1000000000 := tmod_gt_neg x (by decide)
  unfold timestamp_nanos_norm
  by_cases h : Int.tmod x 1000000000 < 0
  · rw [if_pos h]
    dsimp only
    omega
  · rw [if_neg h]
    dsimp only
    omega

/-- The smallest representable whole-second count, evaluated. -/
theorem minSecs_eq : minSecs = -8334632851200 := by decide

/-- The largest representable whole-second count, evaluated. -/
theorem maxSecs_eq : maxSecs = 8210298412799 := by decide

/-- In-range inputs make `NaiveDateTime.from_timestamp` succeed with exactly
the given pair. -/
theorem from_timestamp_ok (secs : Int) (nsecs : Nat) (h1 : nsecs < 2000000000)
    (h2 : minSecs ≤ secs) (h3 : secs ≤ maxSecs) :
    NaiveDateTime.from_timestamp secs nsecs = .ok ⟨secs, nsecs⟩ := by
  unfold NaiveDateTime.from_timestamp
  rw [if_neg (by omega), if_neg (by omega), if_neg (by omega)]

/-- In-range inputs make `Utc.timestamp` succeed with the paired
date-time. -/
theorem Utc.timestamp_ok (z : Utc) (secs : Int) (nsecs : Nat)
    (h1 : nsecs < 2000000000) (h2 : minSecs ≤ secs) (h3 : secs ≤ maxSecs) :
    z.timestamp secs nsecs = .ok (DateTime.from_utc ⟨secs, nsecs⟩ .mk) := by
  unfold Utc.timestamp
  rw [from_timestamp_ok secs nsecs h1 h2 h3]
  cases z
  rfl

/-- C1: for every signed 64-bit input, the normalization steps of
`timestamp_millis` (scale 1000) and `timestamp_nanos` (scale 1000000000)
compute a quotient and remainder recomposing the input with the remainder in
`[0, scale)`; in particular `-1000` milliseconds normalizes to `(-1, 0)` and
`-7001` to `(-8, 999)`. -/
theorem c1_normalization (x : Int) (hlo : -9223372036854775808 ≤ x)
    (hhi : x ≤ 9223372036854775807) :
    ((timestamp_millis_norm x).1 * 1000 + (timestamp_millis_norm x).2 = x ∧
      0 ≤ (timestamp_millis_norm x).2 ∧ (timestamp_millis_norm x).2 < 1000) ∧
    ((timestamp_nanos_norm x).1 * 1000000000 + (timestamp_nanos_norm x).2 = x ∧
      0 ≤ (timestamp_nanos_norm x).2 ∧
      (timestamp_nanos_norm x).2 < 1000000000) ∧
    timestamp_millis_norm (-1000) = (-1, 0) ∧
    timestamp_millis_norm (-7001) = (-8, 999) :=
  ⟨timestamp_millis_norm_spec x, timestamp_nanos_norm_spec x, by decide, by decide⟩

/-- Witness for C1 at the concrete input `x = -7001`. -/
theorem c1_normalization_witness :
    ((timestamp_millis_norm (-7001)).1 * 1000 + (timestamp_millis_norm (-7001)).2 = -7001 ∧
      0 ≤ (timestamp_millis_norm (-7001)).2 ∧ (timestamp_millis_norm (-7001)).2 < 1000) ∧
    ((timestamp_nanos_norm (-7001)).1 * 1000000000 + (timestamp_nanos_norm (-7001)).2 = -7001 ∧
      0 ≤ (timestamp_nanos_norm (-7001)).2 ∧
      (timestamp_nanos_norm (-7001)).2 < 1000000000) ∧
    timestamp_millis_norm (-1000) = (-1, 0) ∧
    timestamp_millis_norm (-7001) = (-8, 999) :=
  c1_normalization (-7001) (by decide) (by decide)

/-- C2: for the Utc zone, `timestamp_nanos` returns `Ok` for every signed
64-bit input. -/
theorem c2_timestamp_nanos_total (z : Utc) (nanos : Int)
    (hlo : -9223372036854775808 ≤ nanos) (hhi : nanos ≤ 9223372036854775807) :
    ∃ dt, z.timestamp_nanos nanos = Except.ok dt := by
  obtain ⟨heq, hr0, hr1⟩ := timestamp_nanos_norm_spec nanos
  have hcast : u32_cast (timestamp_nanos_norm nanos).2 =
      (timestamp_nanos_norm nanos).2.toNat := by
    unfold u32_cast
    rw [Int.emod_eq_of_lt hr0 (by omega)]
  have hns : (timestamp_nanos_norm nanos).2.toNat < 2000000000 := by omega
  have hq1 : minSecs ≤ (timestamp_nanos_norm nanos).1 := by
    rw [minSecs_eq]
    omega
  have hq2 : (timestamp_nanos_norm nanos).1 ≤ maxSecs := by
    rw [maxSecs_eq]
    omega
  refine ⟨DateTime.from_utc
    ⟨(timestamp_nanos_norm nanos).1, (timestamp_nanos_norm nanos).2.toNat⟩ .mk, ?_⟩
  show z.timestamp (timestamp_nanos_norm nanos).1
      (u32_cast (timestamp_nanos_norm nanos).2) = _
  rw [hcast]
  exact Utc.timestamp_ok z _ _ hns hq1 hq2

/-- Witness for C2 at the minimum signed 64-bit input. -/
theorem c2_timestamp_nanos_total_witness :
    ∃ dt, Utc.timestamp_nanos .mk (-9223372036854775808) = Except.ok dt :=
  c2_timestamp_nanos_total .mk (-9223372036854775808) (by decide) (by decide)

/-- C3: evaluation of `Utc.now` at a clock reading strictly before the Unix
epoch: the source aborts inside `expect` instead of returning an error, so
`SystemTimeBeforeEpoch` is never produced. -/
theorem c3_now_panics_before_epoch : Utc.now none = NowOutcome.panicked := rfl

/-- C4: for the Utc zone, `timestamp_millis` maps the eight listed negative
millisecond inputs to the listed civil date-times of 1969-12-31 (UTC). -/
theorem c4_timestamp_millis_table :
    Utc.timestamp_millis .mk (-1) =
      .ok (DateTime.from_utc ⟨civilSecs 1969 12 31 23 59 59, 999000000⟩ .mk) ∧
    Utc.timestamp_millis .mk (-999) =
      .ok (DateTime.from_utc ⟨civilSecs 1969 12 31 23 59 59, 1000000⟩ .mk) ∧
    Utc.timestamp_millis .mk (-1000) =
      .ok (DateTime.from_utc ⟨civilSecs 1969 12 31 23 59 59, 0⟩ .mk) ∧
    Utc.timestamp_millis .mk (-7000) =
      .ok (DateTime.from_utc ⟨civilSecs 1969 12 31 23 59 53, 0⟩ .mk) ∧
    Utc.timestamp_millis .mk (-7001) =
      .ok (DateTime.from_utc ⟨civilSecs 1969 12 31 23 59 52, 999000000⟩ .mk) ∧
    Utc.timestamp_millis .mk (-7003) =
      .ok (DateTime.from_utc ⟨civilSecs 1969 12 31 23 59 52, 997000000⟩ .mk) ∧
    Utc.timestamp_millis .mk (-60000) =
      .ok (DateTime.from_utc ⟨civilSecs 1969 12 31 23 59 0, 0⟩ .mk) ∧
    Utc.timestamp_millis .mk (-3600000) =
      .ok (DateTime.from_utc ⟨civilSecs 1969 12 31 23 0 0, 0⟩ .mk) := by
  decide

/-- C5: `LocalResult` accessor consistency: `single`, `earliest` and `latest`
behave as specified on `Single` and `Ambiguous`, and `earliest` and `latest`
never return `none`. -/
theorem c5_localresult_accessors {T : Type} (t a b : T) :
    (LocalResult.Single t).single = some t ∧
    (LocalResult.Single t).earliest = some t ∧
    (LocalResult.Single t).latest = some t ∧
    (LocalResult.Ambiguous a b).single = none ∧
    (LocalResult.Ambiguous a b).earliest = some a ∧
    (LocalResult.Ambiguous a b).latest = some b ∧
    (∀ r : LocalResult T, r.earliest.isSome = true ∧ r.latest.isSome = true) :=
  ⟨rfl, rfl, rfl, rfl, rfl, rfl, fun r => by cases r <;> exact ⟨rfl, rfl⟩⟩

/-- C6: each `and_*` combinator maps an `Ambiguous` date to an
`AmbiguousDate` error regardless of the time arguments, and maps `Single d`
to the external combination re-wrapped as `Single`, propagating its error. -/
theorem c6_and_combinators {D T DT : Type}
    (f1 : D → T → Except ChronoError DT)
    (f3 : D → Nat → Nat → Nat → Except ChronoError DT)
    (f4 f5 f6 : D → Nat → Nat → Nat → Nat → Except ChronoError DT)
    (d a b : D) (time : T) (hour minute sec frac : Nat) :
    LocalResult.and_time f1 (.Ambiguous a b) time =
      .error (ChronoError.new .AmbiguousDate) ∧
    LocalResult.and_hms f3 (.Ambiguous a b) hour minute sec =
      .error (ChronoError.new .AmbiguousDate) ∧
    LocalResult.and_hms_milli f4 (.Ambiguous a b) hour minute sec frac =
      .error (ChronoError.new .AmbiguousDate) ∧
    LocalResult.and_hms_micro f5 (.Ambiguous a b) hour minute sec frac =
      .error (ChronoError.new .AmbiguousDate) ∧
    LocalResult.and_hms_nano f6 (.Ambiguous a b) hour minute sec frac =
      .error (ChronoError.new .AmbiguousDate) ∧
    LocalResult.and_time f1 (.Single d) time = (f1 d time).map .Single ∧
    LocalResult.and_hms f3 (.Single d) hour minute sec =
      (f3 d hour minute sec).map .Single ∧
    LocalResult.and_hms_milli f4 (.Single d) hour minute sec frac =
      (f4 d hour minute sec frac).map .Single ∧
    LocalResult.and_hms_micro f5 (.Single d) hour minute sec frac =
      (f5 d hour minute sec frac).map .Single ∧
    LocalResult.and_hms_nano f6 (.Single d) hour minute sec frac =
      (f6 d hour minute sec frac).map .Single := by
  refine ⟨rfl, rfl, rfl, rfl, rfl, ?_, ?_, ?_, ?_, ?_⟩
  · show (match f1 d time with
      | .ok dt => Except.ok (LocalResult.Single dt)
      | .error e => .error e) = _
    cases f1 d time <;> rfl
  · show (match f3 d hour minute sec with
      | .ok dt => Except.ok (LocalResult.Single dt)
      | .error e => .error e) = _
    cases f3 d hour minute sec <;> rfl
  · show (match f4 d hour minute sec frac with
      | .ok dt => Except.ok (LocalResult.Single dt)
      | .error e => .error e) = _
    cases f4 d hour minute sec frac <;> rfl
  · show (match f5 d hour minute sec frac with
      | .ok dt => Except.ok (LocalResult.Single dt)
      | .error e => .error e) = _
    cases f5 d hour minute sec frac <;> rfl
  · show (match f6 d hour minute sec frac with
      | .ok dt => Except.ok (LocalResult.Single dt)
      | .error e => .error e) = _
    cases f6 d hour minute sec frac <;> rfl

/-- C7: `unwrap` returns the payload of `Single`; on `Ambiguous` it aborts
with a diagnostic naming both candidates; under the precondition that the
value is `Single`, the aborting branch is unreachable. -/
theorem c7_unwrap {T : Type} (t a b : T) (r : LocalResult T)
    (hr : ∃ u, r = LocalResult.Single u) :
    (LocalResult.Single t).unwrap = UnwrapOutcome.value t ∧
    (LocalResult.Ambiguous a b).unwrap = UnwrapOutcome.panicked a b ∧
    ∃ u, r.unwrap = UnwrapOutcome.value u := by
  obtain ⟨u, rfl⟩ := hr
  exact ⟨rfl, rfl, u, rfl⟩

/-- Witness for C7 at concrete natural-number payloads. -/
theorem c7_unwrap_witness :
    (LocalResult.Single (0 : Nat)).unwrap = UnwrapOutcome.value 0 ∧
    (LocalResult.Ambiguous (1 : Nat) 2).unwrap = UnwrapOutcome.panicked 1 2 ∧
    ∃ u, (LocalResult.Single (0 : Nat)).unwrap = UnwrapOutcome.value u :=
  c7_unwrap 0 1 2 (LocalResult.Single 0) ⟨0, rfl⟩

/-- C8: every Utc resolver returns the Utc value itself and never an error,
and `fix` is the zero fixed offset (0 seconds east of UTC). -/
theorem c8_utc_resolvers (z : Utc) (d : NaiveDate) (t : NaiveDateTime) :
    z.offset_from_local_date d = .ok z ∧
    z.offset_from_local_datetime t = .ok z ∧
    z.offset_from_utc_date d = .ok z ∧
    z.offset_from_utc_datetime t = .ok z ∧
    z.offset_from_utc_date_fixed d = z ∧
    z.offset_from_utc_datetime_fixed t = z ∧
    z.fix = FixedOffset.east 0 ∧
    (z.fix).local_minus_utc = 0 := by
  cases z
  exact ⟨rfl, rfl, rfl, rfl, rfl, rfl, rfl, rfl⟩

/-- C9: after normalization, the millisecond remainder lies in `[0, 1000)`,
so `millis as u32 * 1_000_000` neither truncates nor wraps and stays strictly
below one billion; the nanosecond remainder lies in `[0, 1000000000)`, so
`nanos as u32` is lossless. -/
theorem c9_cast_safety (x : Int) (hlo : -9223372036854775808 ≤ x)
    (hhi : x ≤ 9223372036854775807) :
    (0 ≤ (timestamp_millis_norm x).2 ∧ (timestamp_millis_norm x).2 < 1000) ∧
    u32_cast (timestamp_millis_norm x).2 = (timestamp_millis_norm x).2.toNat ∧
    u32_mul (u32_cast (timestamp_millis_norm x).2) 1000000 =
      (timestamp_millis_norm x).2.toNat * 1000000 ∧
    u32_mul (u32_cast (timestamp_millis_norm x).2) 1000000 < 1000000000 ∧
    (0 ≤ (timestamp_nanos_norm x).2 ∧
      (timestamp_nanos_norm x).2 < 1000000000) ∧
    u32_cast (timestamp_nanos_norm x).2 = (timestamp_nanos_norm x).2.toNat := by
  obtain ⟨hmeq, hm0, hm1⟩ := timestamp_millis_norm_spec x
  obtain ⟨hneq, hn0, hn1⟩ := timestamp_nanos_norm_spec x
  have hcastm : u32_cast (timestamp_millis_norm x).2 =
      (timestamp_millis_norm x).2.toNat := by
    unfold u32_cast
    rw [Int.emod_eq_of_lt hm0 (by omega)]
  have hcastn : u32_cast (timestamp_nanos_norm x).2 =
      (timestamp_nanos_norm x).2.toNat := by
    unfold u32_cast
    rw [Int.emod_eq_of_lt hn0 (by omega)]
  have hmulm : u32_mul (timestamp_millis_norm x).2.toNat 1000000 =
      (timestamp_millis_norm x).2.toNat * 1000000 := by
    unfold u32_mul
    exact Nat.mod_eq_of_lt (by omega)
  refine ⟨⟨hm0, hm1⟩, hcastm, ?_, ?_, ⟨hn0, hn1⟩, hcastn⟩
  · rw [hcastm, hmulm]
  · rw [hcastm, hmulm]
    omega

/-- Witness for C9 at the concrete input `x = -7001`. -/
theorem c9_cast_safety_witness :
    (0 ≤ (timestamp_millis_norm (-7001)).2 ∧ (timestamp_millis_norm (-7001)).2 < 1000) ∧
    u32_cast (timestamp_millis_norm (-7001)).2 = (timestamp_millis_norm (-7001)).2.toNat ∧
    u32_mul (u32_cast (timestamp_millis_norm (-7001)).2) 1000000 =
      (timestamp_millis_norm (-7001)).2.toNat * 1000000 ∧
    u32_mul (u32_cast (timestamp_millis_norm (-7001)).2) 1000000 < 1000000000 ∧
    (0 ≤ (timestamp_nanos_norm (-7001)).2 ∧
      (timestamp_nanos_norm (-7001)).2 < 1000000000) ∧
    u32_cast (timestamp_nanos_norm (-7001)).2 = (timestamp_nanos_norm (-7001)).2.toNat :=
  c9_cast_safety (-7001) (by decide) (by decide)

/-- C10: for the Utc zone, the infallible `FixedTimeZone` shortcuts agree
with the `Ok` values of the fallible `TimeZone` conversions, for every date
and date-time. -/
theorem c10_fixed_refinement (z : Utc) (d : NaiveDate) (t : NaiveDateTime) :
    z.from_utc_date d = Except.ok (z.from_utc_date_fixed d) ∧
    z.from_utc_datetime t = Except.ok (z.from_utc_datetime_fixed t) := by
  cases z
  exact ⟨rfl, rfl⟩

end Chrono
